import Mathlib

/-!
Shallow embedding of the synchronization primitive bookkeeping core
(`src/sync.rs`): typed identifiers, mutexes, reader-writer locks and
condition variables, together with the operations the scheduler shims
invoke on them.

Modelling conventions:
* Rust machine integers (`u32`, `usize`) are `Nat` with explicit bounds
  (`U32_MAX`, `USIZE_MAX`); `checked_add`/`checked_sub` become
  `Option`-returning functions, and a failing `unwrap`/`expect`/`assert!`
  (a panic) is modelled as the operation returning `none`.
* `VecDeque<ThreadId>` is `List ThreadId` (front of list = front of deque).
* `HashMap<ThreadId, usize>` is an association list `List (ThreadId × Nat)`;
  the `Entry` API updates the existing entry in place and inserts fresh
  entries, mirroring the hash-map operations used by the source.
* The scheduler calls `block_thread`/`unblock_thread` are external; the
  operations return the requested thread as an explicit effect value.
-/

/-- Simulated thread identifier; opaque, supplied by the scheduler. -/
abbrev ThreadId := Nat

/-- Upper bound of `u32`. -/
def U32_MAX : Nat := 2 ^ 32 - 1

/-- Upper bound of `usize` (64-bit host). -/
def USIZE_MAX : Nat := 2 ^ 64 - 1

/-- `usize::checked_add`: `none` models the overflow panic path. -/
def checkedAddUsize (a b : Nat) : Option Nat :=
  if a + b ≤ USIZE_MAX then some (a + b) else none

/-- `MutexId(NonZeroU32)`: 0 is reserved as the "not assigned" sentinel. -/
structure MutexId where
  val : Nat
  pos : 0 < val

instance : DecidableEq MutexId := fun a b =>
  if h : a.val = b.val then
    isTrue (by cases a; cases b; simpa using h)
  else
    isFalse (by intro he; cases he; exact h rfl)

/-- `MutexId::from_u32`: panics (returns `none`) exactly when the raw integer is 0. -/
def MutexId.from_u32 (id : Nat) : Option MutexId :=
  if h : 0 < id then some ⟨id, h⟩ else none

/-- `<MutexId as Idx>::new`: shift a 0-based arena index by one; the
`u32::try_from(idx).unwrap().checked_add(1).unwrap()` chain panics
(returns `none`) when `idx + 1` does not fit in a `u32`. -/
def MutexId.new (idx : Nat) : Option MutexId :=
  if idx + 1 ≤ U32_MAX then some ⟨idx + 1, Nat.succ_pos idx⟩ else none

/-- `<MutexId as Idx>::index`: recover the 0-based arena index. -/
def MutexId.index (id : MutexId) : Nat := id.val - 1

/-- `MutexId::to_u32_scalar`: the encoded integer handed to simulated programs. -/
def MutexId.to_u32_scalar (id : MutexId) : Nat := id.val

/-- `RwLockId(NonZeroU32)`. -/
structure RwLockId where
  val : Nat
  pos : 0 < val

instance : DecidableEq RwLockId := fun a b =>
  if h : a.val = b.val then
    isTrue (by cases a; cases b; simpa using h)
  else
    isFalse (by intro he; cases he; exact h rfl)

/-- `RwLockId::from_u32`: panics (returns `none`) exactly when the raw integer is 0. -/
def RwLockId.from_u32 (id : Nat) : Option RwLockId :=
  if h : 0 < id then some ⟨id, h⟩ else none

/-- `<RwLockId as Idx>::new`. -/
def RwLockId.new (idx : Nat) : Option RwLockId :=
  if idx + 1 ≤ U32_MAX then some ⟨idx + 1, Nat.succ_pos idx⟩ else none

/-- `<RwLockId as Idx>::index`. -/
def RwLockId.index (id : RwLockId) : Nat := id.val - 1

/-- `CondvarId(NonZeroU32)`. -/
structure CondvarId where
  val : Nat
  pos : 0 < val

instance : DecidableEq CondvarId := fun a b =>
  if h : a.val = b.val then
    isTrue (by cases a; cases b; simpa using h)
  else
    isFalse (by intro he; cases he; exact h rfl)

/-- `CondvarId::from_u32`: panics (returns `none`) exactly when the raw integer is 0. -/
def CondvarId.from_u32 (id : Nat) : Option CondvarId :=
  if h : 0 < id then some ⟨id, h⟩ else none

/-- `<CondvarId as Idx>::new`. -/
def CondvarId.new (idx : Nat) : Option CondvarId :=
  if idx + 1 ≤ U32_MAX then some ⟨idx + 1, Nat.succ_pos idx⟩ else none

/-- `<CondvarId as Idx>::index`. -/
def CondvarId.index (id : CondvarId) : Nat := id.val - 1

/-- The mutex state (`struct Mutex`). -/
structure Mutex where
  owner : Option ThreadId
  lock_count : Nat
  queue : List ThreadId
deriving DecidableEq

/-- `Default for Mutex`. -/
def Mutex.default : Mutex := ⟨none, 0, []⟩

/-- `mutex_is_locked`. -/
def Mutex.is_locked (m : Mutex) : Bool := m.owner.isSome

/-- `mutex_get_owner`: `owner.unwrap()`, `none` models the panic on an unlocked mutex. -/
def Mutex.get_owner (m : Mutex) : Option ThreadId := m.owner

/-- `mutex_lock`: body of the source function acting on the addressed
mutex record. A failing `assert!`/`checked_add(1).unwrap()` is `none`. -/
def Mutex.lock (m : Mutex) (thread : ThreadId) : Option Mutex :=
  match m.owner with
  | some current_owner =>
      if thread = current_owner then
        if 0 < m.lock_count then
          (checkedAddUsize m.lock_count 1).map fun c => { m with lock_count := c }
        else
          none
      else
        none
  | none =>
      (checkedAddUsize m.lock_count 1).map fun c =>
        { m with owner := some thread, lock_count := c }

/-- `mutex_dequeue`: `queue.pop_front()`. -/
def Mutex.dequeue (m : Mutex) : Mutex × Option ThreadId :=
  match m.queue with
  | [] => (m, none)
  | t :: rest => ({ m with queue := rest }, some t)

/-- `mutex_enqueue`: asserts the mutex is locked, then `queue.push_back(thread)`. -/
def Mutex.enqueue (m : Mutex) (thread : ThreadId) : Option Mutex :=
  if m.is_locked then some { m with queue := m.queue ++ [thread] } else none

/-- `mutex_unlock`: body of the source function acting on the addressed
mutex record. Returns the updated record, the thread whose unblocking is
requested from the scheduler (if any), and the `Option<usize>` result
(`none` = mutex not locked, or locked by a different thread; `some c` =
unlocked from previous count `c`). The outer `Option` is `none` when the
`checked_sub(1).expect(..)` underflow panic fires. -/
def Mutex.unlock (m : Mutex) (expected_owner : ThreadId) :
    Option (Mutex × Option ThreadId × Option Nat) :=
  match m.owner with
  | some current_owner =>
      if current_owner = expected_owner then
        match m.lock_count with
        | 0 => none
        | Nat.succ k =>
            if k = 0 then
              let m1 : Mutex := { m with owner := none, lock_count := 0 }
              match m1.dequeue with
              | (m2, some new_owner) =>
                  match m2.lock new_owner with
                  | some m3 => some (m3, some new_owner, some (k + 1))
                  | none => none
              | (m2, none) => some (m2, none, some (k + 1))
            else
              some ({ m with lock_count := k }, none, some (k + 1))
      else
        some (m, none, none)
  | none => some (m, none, none)

/-! ### Association-list model of `HashMap<ThreadId, usize>` -/

/-- `HashMap::get` / reading an `Entry`: first (and, for a map, only) value
stored under key `t`. -/
def lookupR : List (ThreadId × Nat) → ThreadId → Option Nat
  | [], _ => none
  | (k, c) :: rest, t => if k = t then some c else lookupR rest t

/-- `Entry::or_insert` followed by writing through the entry: replace the
value of the existing entry for `t` in place, or insert a fresh entry. -/
def updateR : List (ThreadId × Nat) → ThreadId → Nat → List (ThreadId × Nat)
  | [], t, c => [(t, c)]
  | (k, c0) :: rest, t, c =>
      if k = t then (k, c) :: rest else (k, c0) :: updateR rest t c

/-- `OccupiedEntry::remove`: drop the entry for `t`. -/
def removeR (l : List (ThreadId × Nat)) (t : ThreadId) : List (ThreadId × Nat) :=
  l.filter fun p => p.1 ≠ t

/-- The read-write lock state (`struct RwLock`). -/
structure RwLock where
  writer : Option ThreadId
  readers : List (ThreadId × Nat)
  writer_queue : List ThreadId
  reader_queue : List ThreadId
deriving DecidableEq

/-- `Default for RwLock`. -/
def RwLock.default : RwLock := ⟨none, [], [], []⟩

/-- `rwlock_is_locked`: a writer holds it or some reader entry exists. -/
def RwLock.is_locked (rw : RwLock) : Bool :=
  rw.writer.isSome || !rw.readers.isEmpty

/-- `rwlock_is_write_locked`. -/
def RwLock.is_write_locked (rw : RwLock) : Bool := rw.writer.isSome

/-- `rwlock_reader_lock`: asserts not write-locked, then increments
`readers[reader]` (inserting 0 first via `or_insert(0)`); `none` models a
failing assert or reader-counter overflow. -/
def RwLock.reader_lock (rw : RwLock) (reader : ThreadId) : Option RwLock :=
  if rw.is_write_locked then
    none
  else
    let count := (lookupR rw.readers reader).getD 0
    (checkedAddUsize count 1).map fun c =>
      { rw with readers := updateR rw.readers reader c }

/-- `rwlock_reader_unlock`: decrement `reader`'s count, removing the entry
at zero; returns `false` (state unchanged) when `reader` holds no entry. -/
def RwLock.reader_unlock (rw : RwLock) (reader : ThreadId) : RwLock × Bool :=
  match lookupR rw.readers reader with
  | some count =>
      let c := count - 1
      if c = 0 then
        ({ rw with readers := removeR rw.readers reader }, true)
      else
        ({ rw with readers := updateR rw.readers reader c }, true)
  | none => (rw, false)

/-- `rwlock_enqueue_and_block_reader`: asserts write-locked, appends to
`reader_queue` and requests the scheduler to block the reader (returned as
an effect). -/
def RwLock.enqueue_and_block_reader (rw : RwLock) (reader : ThreadId) :
    Option (RwLock × ThreadId) :=
  if rw.is_write_locked then
    some ({ rw with reader_queue := rw.reader_queue ++ [reader] }, reader)
  else
    none

/-- `rwlock_dequeue_reader`: `reader_queue.pop_front()`. -/
def RwLock.dequeue_reader (rw : RwLock) : RwLock × Option ThreadId :=
  match rw.reader_queue with
  | [] => (rw, none)
  | t :: rest => ({ rw with reader_queue := rest }, some t)

/-- `rwlock_writer_lock`: asserts fully unlocked, then sets the writer. -/
def RwLock.writer_lock (rw : RwLock) (writer : ThreadId) : Option RwLock :=
  if rw.is_locked then none else some { rw with writer := some writer }

/-- `rwlock_writer_unlock`: `writer.take()`. -/
def RwLock.writer_unlock (rw : RwLock) : RwLock × Option ThreadId :=
  ({ rw with writer := none }, rw.writer)

/-- `rwlock_enqueue_and_block_writer`: asserts locked, appends to
`writer_queue` and requests the scheduler to block the writer. -/
def RwLock.enqueue_and_block_writer (rw : RwLock) (writer : ThreadId) :
    Option (RwLock × ThreadId) :=
  if rw.is_locked then
    some ({ rw with writer_queue := rw.writer_queue ++ [writer] }, writer)
  else
    none

/-- `rwlock_dequeue_writer`: `writer_queue.pop_front()`. -/
def RwLock.dequeue_writer (rw : RwLock) : RwLock × Option ThreadId :=
  match rw.writer_queue with
  | [] => (rw, none)
  | t :: rest => ({ rw with writer_queue := rest }, some t)

/-- A thread waiting on a conditional variable (`struct CondvarWaiter`). -/
structure CondvarWaiter where
  thread : ThreadId
  mutex : MutexId
deriving DecidableEq

/-- The conditional variable state (`struct Condvar`). -/
structure Condvar where
  waiters : List CondvarWaiter
deriving DecidableEq

/-- `Default for Condvar`. -/
def Condvar.default : Condvar := ⟨[]⟩

/-- `condvar_is_awaited`. -/
def Condvar.is_awaited (cv : Condvar) : Bool := !cv.waiters.isEmpty

/-- `condvar_wait`: asserts the thread is not already waiting, then
appends the `(thread, mutex)` pairing. -/
def Condvar.wait (cv : Condvar) (thread : ThreadId) (mutex : MutexId) : Option Condvar :=
  if cv.waiters.all fun waiter => waiter.thread ≠ thread then
    some ⟨cv.waiters ++ [⟨thread, mutex⟩]⟩
  else
    none

/-- `condvar_signal`: pop the front waiter, returning its thread and the
mutex recorded with it. -/
def Condvar.signal (cv : Condvar) : Condvar × Option (ThreadId × MutexId) :=
  match cv.waiters with
  | [] => (cv, none)
  | waiter :: rest => (⟨rest⟩, some (waiter.thread, waiter.mutex))

/-- `condvar_remove_waiter`: retain only the waiters of other threads. -/
def Condvar.remove_waiter (cv : Condvar) (thread : ThreadId) : Condvar :=
  ⟨cv.waiters.filter fun waiter => waiter.thread ≠ thread⟩

/-! ### The aggregate state and the arena-indexed operations

`IndexVec<Id, T>` is a `List T` indexed through `Id.index`; indexing out
of bounds (impossible for ids handed out by `push`) models the panic as
`none`, and `push` appends and returns the id of the new slot. -/

/-- The state of all synchronization variables (`struct SynchronizationState`). -/
structure SynchronizationState where
  mutexes : List Mutex
  rwlocks : List RwLock
  condvars : List Condvar
deriving DecidableEq

/-- `Default for SynchronizationState`. -/
def SynchronizationState.default : SynchronizationState := ⟨[], [], []⟩

/-- Read `mutexes[id]`. -/
def SynchronizationState.getMutex (s : SynchronizationState) (id : MutexId) : Option Mutex :=
  s.mutexes.get? id.index

/-- Write `mutexes[id]`. -/
def SynchronizationState.setMutex (s : SynchronizationState) (id : MutexId) (m : Mutex) :
    SynchronizationState :=
  { s with mutexes := s.mutexes.set id.index m }

/-- Read `rwlocks[id]`. -/
def SynchronizationState.getRwLock (s : SynchronizationState) (id : RwLockId) : Option RwLock :=
  s.rwlocks.get? id.index

/-- Write `rwlocks[id]`. -/
def SynchronizationState.setRwLock (s : SynchronizationState) (id : RwLockId) (rw : RwLock) :
    SynchronizationState :=
  { s with rwlocks := s.rwlocks.set id.index rw }

/-- Read `condvars[id]`. -/
def SynchronizationState.getCondvar (s : SynchronizationState) (id : CondvarId) : Option Condvar :=
  s.condvars.get? id.index

/-- Write `condvars[id]`. -/
def SynchronizationState.setCondvar (s : SynchronizationState) (id : CondvarId) (cv : Condvar) :
    SynchronizationState :=
  { s with condvars := s.condvars.set id.index cv }

/-- `mutex_create`: push a default mutex, return the id of the new slot. -/
def mutex_create (s : SynchronizationState) : Option (SynchronizationState × MutexId) :=
  (MutexId.new s.mutexes.length).map fun id =>
    ({ s with mutexes := s.mutexes ++ [Mutex.default] }, id)

/-- `mutex_lock` on the aggregate state. -/
def mutex_lock (s : SynchronizationState) (id : MutexId) (thread : ThreadId) :
    Option SynchronizationState :=
  match s.getMutex id with
  | none => none
  | some m => (m.lock thread).map (s.setMutex id)

/-- `mutex_unlock` on the aggregate state: also returns the thread whose
unblocking is requested (if ownership was handed off) and the
`Option<usize>` result. -/
def mutex_unlock (s : SynchronizationState) (id : MutexId) (expected_owner : ThreadId) :
    Option (SynchronizationState × Option ThreadId × Option Nat) :=
  match s.getMutex id with
  | none => none
  | some m =>
      (m.unlock expected_owner).map fun r => (s.setMutex id r.1, r.2.1, r.2.2)

/-- `mutex_enqueue` on the aggregate state. -/
def mutex_enqueue (s : SynchronizationState) (id : MutexId) (thread : ThreadId) :
    Option SynchronizationState :=
  match s.getMutex id with
  | none => none
  | some m => (m.enqueue thread).map (s.setMutex id)

/-- `mutex_dequeue` on the aggregate state. -/
def mutex_dequeue (s : SynchronizationState) (id : MutexId) :
    Option (SynchronizationState × Option ThreadId) :=
  match s.getMutex id with
  | none => none
  | some m => some (s.setMutex id m.dequeue.1, m.dequeue.2)

/-- `rwlock_create`. -/
def rwlock_create (s : SynchronizationState) : Option (SynchronizationState × RwLockId) :=
  (RwLockId.new s.rwlocks.length).map fun id =>
    ({ s with rwlocks := s.rwlocks ++ [RwLock.default] }, id)

/-- `rwlock_reader_lock` on the aggregate state. -/
def rwlock_reader_lock (s : SynchronizationState) (id : RwLockId) (reader : ThreadId) :
    Option SynchronizationState :=
  match s.getRwLock id with
  | none => none
  | some rw => (rw.reader_lock reader).map (s.setRwLock id)

/-- `rwlock_reader_unlock` on the aggregate state. -/
def rwlock_reader_unlock (s : SynchronizationState) (id : RwLockId) (reader : ThreadId) :
    Option (SynchronizationState × Bool) :=
  match s.getRwLock id with
  | none => none
  | some rw => some (s.setRwLock id (rw.reader_unlock reader).1, (rw.reader_unlock reader).2)

/-- `rwlock_enqueue_and_block_reader` on the aggregate state; the second
component is the thread the scheduler is asked to block. -/
def rwlock_enqueue_and_block_reader (s : SynchronizationState) (id : RwLockId)
    (reader : ThreadId) : Option (SynchronizationState × ThreadId) :=
  match s.getRwLock id with
  | none => none
  | some rw => (rw.enqueue_and_block_reader reader).map fun r => (s.setRwLock id r.1, r.2)

/-- `rwlock_dequeue_reader` on the aggregate state. -/
def rwlock_dequeue_reader (s : SynchronizationState) (id : RwLockId) :
    Option (SynchronizationState × Option ThreadId) :=
  match s.getRwLock id with
  | none => none
  | some rw => some (s.setRwLock id rw.dequeue_reader.1, rw.dequeue_reader.2)

/-- `rwlock_writer_lock` on the aggregate state. -/
def rwlock_writer_lock (s : SynchronizationState) (id : RwLockId) (writer : ThreadId) :
    Option SynchronizationState :=
  match s.getRwLock id with
  | none => none
  | some rw => (rw.writer_lock writer).map (s.setRwLock id)

/-- `rwlock_writer_unlock` on the aggregate state. -/
def rwlock_writer_unlock (s : SynchronizationState) (id : RwLockId) :
    Option (SynchronizationState × Option ThreadId) :=
  match s.getRwLock id with
  | none => none
  | some rw => some (s.setRwLock id rw.writer_unlock.1, rw.writer_unlock.2)

/-- `rwlock_enqueue_and_block_writer` on the aggregate state. -/
def rwlock_enqueue_and_block_writer (s : SynchronizationState) (id : RwLockId)
    (writer : ThreadId) : Option (SynchronizationState × ThreadId) :=
  match s.getRwLock id with
  | none => none
  | some rw => (rw.enqueue_and_block_writer writer).map fun r => (s.setRwLock id r.1, r.2)

/-- `rwlock_dequeue_writer` on the aggregate state. -/
def rwlock_dequeue_writer (s : SynchronizationState) (id : RwLockId) :
    Option (SynchronizationState × Option ThreadId) :=
  match s.getRwLock id with
  | none => none
  | some rw => some (s.setRwLock id rw.dequeue_writer.1, rw.dequeue_writer.2)

/-- `condvar_create`. -/
def condvar_create (s : SynchronizationState) : Option (SynchronizationState × CondvarId) :=
  (CondvarId.new s.condvars.length).map fun id =>
    ({ s with condvars := s.condvars ++ [Condvar.default] }, id)

/-- `condvar_wait` on the aggregate state. -/
def condvar_wait (s : SynchronizationState) (id : CondvarId) (thread : ThreadId)
    (mutex : MutexId) : Option SynchronizationState :=
  match s.getCondvar id with
  | none => none
  | some cv => (cv.wait thread mutex).map (s.setCondvar id)

/-- `condvar_signal` on the aggregate state. -/
def condvar_signal (s : SynchronizationState) (id : CondvarId) :
    Option (SynchronizationState × Option (ThreadId × MutexId)) :=
  match s.getCondvar id with
  | none => none
  | some cv => some (s.setCondvar id cv.signal.1, cv.signal.2)

/-- `condvar_remove_waiter` on the aggregate state. -/
def condvar_remove_waiter (s : SynchronizationState) (id : CondvarId) (thread : ThreadId) :
    Option SynchronizationState :=
  match s.getCondvar id with
  | none => none
  | some cv => some (s.setCondvar id (cv.remove_waiter thread))

/-! ### Operation alphabets, for claims quantifying over operation sequences -/

/-- The mutating operations on a single mutex record. -/
inductive MutexOp where
  | lockOp (thread : ThreadId)
  | unlockOp (expected_owner : ThreadId)
  | enqueueOp (thread : ThreadId)
  | dequeueOp
deriving DecidableEq

/-- Run one mutex operation; `none` when the source operation panics. -/
def Mutex.applyOp (m : Mutex) : MutexOp → Option Mutex
  | .lockOp t => m.lock t
  | .unlockOp t => (m.unlock t).map fun r => r.1
  | .enqueueOp t => m.enqueue t
  | .dequeueOp => some m.dequeue.1

/-- Run a sequence of mutex operations. -/
def Mutex.applyOps : Mutex → List MutexOp → Option Mutex
  | m, [] => some m
  | m, op :: rest =>
      match m.applyOp op with
      | none => none
      | some m1 => m1.applyOps rest

/-- The mutating operations on a single rwlock record. -/
inductive RwOp where
  | readerLockOp (reader : ThreadId)
  | readerUnlockOp (reader : ThreadId)
  | enqueueReaderOp (reader : ThreadId)
  | dequeueReaderOp
  | writerLockOp (writer : ThreadId)
  | writerUnlockOp
  | enqueueWriterOp (writer : ThreadId)
  | dequeueWriterOp
deriving DecidableEq

/-- Run one rwlock operation; `none` when the source operation panics. -/
def RwLock.applyOp (rw : RwLock) : RwOp → Option RwLock
  | .readerLockOp t => rw.reader_lock t
  | .readerUnlockOp t => some (rw.reader_unlock t).1
  | .enqueueReaderOp t => (rw.enqueue_and_block_reader t).map fun r => r.1
  | .dequeueReaderOp => some rw.dequeue_reader.1
  | .writerLockOp t => rw.writer_lock t
  | .writerUnlockOp => some rw.writer_unlock.1
  | .enqueueWriterOp t => (rw.enqueue_and_block_writer t).map fun r => r.1
  | .dequeueWriterOp => some rw.dequeue_writer.1

/-- Run a sequence of rwlock operations. -/
def RwLock.applyOps : RwLock → List RwOp → Option RwLock
  | rw, [] => some rw
  | rw, op :: rest =>
      match rw.applyOp op with
      | none => none
      | some rw1 => rw1.applyOps rest

/-- The mutating operations on the aggregate state. -/
inductive SyncOp where
  | mutexCreateOp
  | mutexLockOp (id : MutexId) (thread : ThreadId)
  | mutexUnlockOp (id : MutexId) (expected_owner : ThreadId)
  | mutexEnqueueOp (id : MutexId) (thread : ThreadId)
  | mutexDequeueOp (id : MutexId)
  | rwlockCreateOp
  | rwlockReaderLockOp (id : RwLockId) (reader : ThreadId)
  | rwlockReaderUnlockOp (id : RwLockId) (reader : ThreadId)
  | rwlockEnqueueReaderOp (id : RwLockId) (reader : ThreadId)
  | rwlockDequeueReaderOp (id : RwLockId)
  | rwlockWriterLockOp (id : RwLockId) (writer : ThreadId)
  | rwlockWriterUnlockOp (id : RwLockId)
  | rwlockEnqueueWriterOp (id : RwLockId) (writer : ThreadId)
  | rwlockDequeueWriterOp (id : RwLockId)
  | condvarCreateOp
  | condvarWaitOp (id : CondvarId) (thread : ThreadId) (mutex : MutexId)
  | condvarSignalOp (id : CondvarId)
  | condvarRemoveWaiterOp (id : CondvarId) (thread : ThreadId)

/-- Run one aggregate operation, keeping only the resulting state. -/
def applySyncOp (s : SynchronizationState) : SyncOp → Option SynchronizationState
  | .mutexCreateOp => (mutex_create s).map fun r => r.1
  | .mutexLockOp id t => mutex_lock s id t
  | .mutexUnlockOp id t => (mutex_unlock s id t).map fun r => r.1
  | .mutexEnqueueOp id t => mutex_enqueue s id t
  | .mutexDequeueOp id => (mutex_dequeue s id).map fun r => r.1
  | .rwlockCreateOp => (rwlock_create s).map fun r => r.1
  | .rwlockReaderLockOp id t => rwlock_reader_lock s id t
  | .rwlockReaderUnlockOp id t => (rwlock_reader_unlock s id t).map fun r => r.1
  | .rwlockEnqueueReaderOp id t => (rwlock_enqueue_and_block_reader s id t).map fun r => r.1
  | .rwlockDequeueReaderOp id => (rwlock_dequeue_reader s id).map fun r => r.1
  | .rwlockWriterLockOp id t => rwlock_writer_lock s id t
  | .rwlockWriterUnlockOp id => (rwlock_writer_unlock s id).map fun r => r.1
  | .rwlockEnqueueWriterOp id t => (rwlock_enqueue_and_block_writer s id t).map fun r => r.1
  | .rwlockDequeueWriterOp id => (rwlock_dequeue_writer s id).map fun r => r.1
  | .condvarCreateOp => (condvar_create s).map fun r => r.1
  | .condvarWaitOp id t mx => condvar_wait s id t mx
  | .condvarSignalOp id => (condvar_signal s id).map fun r => r.1
  | .condvarRemoveWaiterOp id t => condvar_remove_waiter s id t

/-- The `mutexes` arena index an operation may touch (`length` = the slot
a create appends). -/
def SyncOp.mutexIdx (s : SynchronizationState) : SyncOp → Option Nat
  | .mutexCreateOp => some s.mutexes.length
  | .mutexLockOp id _ => some id.index
  | .mutexUnlockOp id _ => some id.index
  | .mutexEnqueueOp id _ => some id.index
  | .mutexDequeueOp id => some id.index
  | _ => none

/-- The `rwlocks` arena index an operation may touch. -/
def SyncOp.rwlockIdx (s : SynchronizationState) : SyncOp → Option Nat
  | .rwlockCreateOp => some s.rwlocks.length
  | .rwlockReaderLockOp id _ => some id.index
  | .rwlockReaderUnlockOp id _ => some id.index
  | .rwlockEnqueueReaderOp id _ => some id.index
  | .rwlockDequeueReaderOp id => some id.index
  | .rwlockWriterLockOp id _ => some id.index
  | .rwlockWriterUnlockOp id => some id.index
  | .rwlockEnqueueWriterOp id _ => some id.index
  | .rwlockDequeueWriterOp id => some id.index
  | _ => none

/-- The `condvars` arena index an operation may touch. -/
def SyncOp.condvarIdx (s : SynchronizationState) : SyncOp → Option Nat
  | .condvarCreateOp => some s.condvars.length
  | .condvarWaitOp id _ _ => some id.index
  | .condvarSignalOp id => some id.index
  | .condvarRemoveWaiterOp id _ => some id.index
  | _ => none

/-! ### Derived notions used to state the claims -/

/-- Number of occurrences of thread `t` across the four places of an
rwlock: the writer slot, the keys of `readers`, and the two wait queues. -/
def RwLock.occ (rw : RwLock) (t : ThreadId) : Nat :=
  (if rw.writer = some t then 1 else 0)
    + (rw.readers.map Prod.fst).count t
    + rw.writer_queue.count t
    + rw.reader_queue.count t

/-- The spec's rwlock occupancy invariant: every thread appears in at most
one of `{writer, readers, writer_queue, reader_queue}`, and at most once
in each queue. -/
def RwLock.threadsDisjoint (rw : RwLock) : Prop :=
  ∀ t, rw.occ t ≤ 1

/-- Freshness side condition for the operations that add a thread to an
rwlock: the thread being added occurs nowhere in the rwlock yet. -/
def RwOp.freshFor (op : RwOp) (rw : RwLock) : Prop :=
  match op with
  | .readerLockOp t => rw.occ t = 0
  | .writerLockOp t => rw.occ t = 0
  | .enqueueReaderOp t => rw.occ t = 0
  | .enqueueWriterOp t => rw.occ t = 0
  | _ => True

/-- `k` successive `rwlock_reader_lock` calls by one thread. -/
def readerLockN (rw : RwLock) (T : ThreadId) : Nat → Option RwLock
  | 0 => some rw
  | k + 1 =>
      match rw.reader_lock T with
      | none => none
      | some rw1 => readerLockN rw1 T k

/-- `k` successive `rwlock_reader_unlock` calls by one thread; the boolean
is the conjunction of the `k` returned booleans. -/
def readerUnlockN (rw : RwLock) (T : ThreadId) : Nat → RwLock × Bool
  | 0 => (rw, true)
  | k + 1 =>
      let r := rw.reader_unlock T
      let r2 := readerUnlockN r.1 T k
      (r2.1, r.2 && r2.2)

/-! ## Theorems -/

/-- C1: for a mutex locked by `T` with `lock_count = 1` and a non-empty
wait queue, `mutex_unlock(id, T)` clears the owner, pops exactly the
oldest waiter `Tn`, makes `Tn` the owner with `lock_count = 1`, requests
the scheduler to unblock `Tn`, and leaves the remaining waiters queued in
their original order. -/
theorem C1_mutex_unlock_handoff (m : Mutex) (T Tn : ThreadId) (rest : List ThreadId)
    (howner : m.owner = some T) (hcount : m.lock_count = 1)
    (hqueue : m.queue = Tn :: rest) :
    m.unlock T = some (⟨some Tn, 1, rest⟩, some Tn, some 1) := by
  obtain ⟨o, c, q⟩ := m
  dsimp at howner hcount hqueue
  subst howner hcount hqueue
  simp [Mutex.unlock, Mutex.dequeue, Mutex.lock, checkedAddUsize, USIZE_MAX]

/-- Witness for C1 at a concrete mutex. -/
theorem C1_mutex_unlock_handoff_witness :
    Mutex.unlock ⟨some 1, 1, [2, 3]⟩ 1 = some (⟨some 2, 1, [3]⟩, some 2, some 1) :=
  C1_mutex_unlock_handoff ⟨some 1, 1, [2, 3]⟩ 1 2 [3] rfl rfl rfl

/-- C2 counterexample: the source returns `Ok(None)` both for unlocking an
unlocked mutex and for unlocking a mutex owned by another thread, so the
two failure outcomes are NOT distinguishable from each other by the
caller: at the concrete inputs below the returned values coincide. -/
theorem C2_counterexample :
    (Mutex.unlock ⟨none, 0, []⟩ 0).map (fun r => r.2.2)
      = (Mutex.unlock ⟨some 1, 1, []⟩ 0).map (fun r => r.2.2) ∧
    (Mutex.unlock ⟨none, 0, []⟩ 0).map (fun r => r.2.2) = some none := by
  decide

/-- C2 (amended): `mutex_unlock` returns `some C` (the previous count)
exactly in the success case where `expected_owner` holds the mutex; when
the mutex is unlocked and when it is held by a different thread it returns
`none` in both cases (with no state change), so success is distinguishable
from failure but the two failure modes are not distinguishable from each
other. -/
theorem C2_unlock_result_classification (m : Mutex) (T : ThreadId) :
    (m.owner = none → m.unlock T = some (m, none, none)) ∧
    (∀ T1, m.owner = some T1 → T1 ≠ T → m.unlock T = some (m, none, none)) ∧
    (m.owner = some T → 0 < m.lock_count →
      ∃ r, m.unlock T = some r ∧ r.2.2 = some m.lock_count) := by
  obtain ⟨o, c, q⟩ := m
  refine ⟨?_, ?_, ?_⟩
  · intro h; dsimp only at h; subst h
    simp [Mutex.unlock]
  · intro T1 h hne; dsimp only at h; subst h
    simp [Mutex.unlock, hne]
  · intro h hc; dsimp only at h hc; subst h
    obtain ⟨k, rfl⟩ : ∃ k, c = k + 1 := ⟨c - 1, by omega⟩
    by_cases hk : k = 0
    · subst hk
      cases q with
      | nil =>
          exact ⟨(⟨none, 0, []⟩, none, some 1),
            by simp [Mutex.unlock, Mutex.dequeue], rfl⟩
      | cons Tn rest =>
          exact ⟨(⟨some Tn, 1, rest⟩, some Tn, some 1),
            by simp [Mutex.unlock, Mutex.dequeue, Mutex.lock, checkedAddUsize, USIZE_MAX], rfl⟩
    · exact ⟨(⟨some T, k, q⟩, none, some (k + 1)),
        by simp [Mutex.unlock, hk], rfl⟩

/-- Witness for C2 (amended) at concrete mutexes. -/
theorem C2_unlock_result_classification_witness :
    Mutex.unlock ⟨none, 0, []⟩ 7 = some (⟨none, 0, []⟩, none, none) ∧
    Mutex.unlock ⟨some 1, 1, []⟩ 7 = some (⟨some 1, 1, []⟩, none, none) ∧
    ∃ r, Mutex.unlock ⟨some 7, 2, []⟩ 7 = some r ∧ r.2.2 = some 2 :=
  ⟨(C2_unlock_result_classification ⟨none, 0, []⟩ 7).1 rfl,
   (C2_unlock_result_classification ⟨some 1, 1, []⟩ 7).2.1 1 rfl (by decide),
   (C2_unlock_result_classification ⟨some 7, 2, []⟩ 7).2.2 rfl (by decide)⟩

/-- C4 counterexample: with `lock_count = 1` and a waiter queued,
`mutex_unlock` does not leave the mutex unlocked as the claim states: the
queued waiter becomes the new owner, so the mutex is still locked. -/
theorem C4_counterexample :
    (Mutex.unlock ⟨some 1, 1, [2]⟩ 1).map (fun r => r.1.is_locked) = some true ∧
    (Mutex.unlock ⟨some 1, 1, [2]⟩ 1).map (fun r => r.1) = some ⟨some 2, 1, []⟩ := by
  decide

/-- C4 (amended): `mutex_lock(id, T)` on an unlocked mutex sets the owner
to `T` and `lock_count` to 1, and on a mutex already owned by `T`
increments `lock_count` by 1; `mutex_unlock(id, T)` on a mutex owned by
`T` with `lock_count = n` returns the previous count `n` and leaves the
mutex locked by `T` with count `n - 1` when `n > 1`, and unlocked when
`n = 1` and the wait queue is empty (with a non-empty queue, ownership is
handed to the first waiter instead). -/
theorem C4_lock_unlock (m : Mutex) (T : ThreadId) :
    (m.owner = none → m.lock_count = 0 → m.lock T = some ⟨some T, 1, m.queue⟩) ∧
    (m.owner = some T → 0 < m.lock_count → m.lock_count + 1 ≤ USIZE_MAX →
      m.lock T = some ⟨some T, m.lock_count + 1, m.queue⟩) ∧
    (m.owner = some T → 1 < m.lock_count →
      m.unlock T = some (⟨some T, m.lock_count - 1, m.queue⟩, none, some m.lock_count)) ∧
    (m.owner = some T → m.lock_count = 1 → m.queue = [] →
      m.unlock T = some (⟨none, 0, []⟩, none, some 1)) := by
  obtain ⟨o, c, q⟩ := m
  refine ⟨?_, ?_, ?_, ?_⟩
  · intro h hc; dsimp only at h hc; subst h hc
    simp [Mutex.lock, checkedAddUsize, USIZE_MAX]
  · intro h hc hov; dsimp only at h hc hov; subst h
    simp [Mutex.lock, hc, checkedAddUsize, hov]
  · intro h hn; dsimp only at h hn; subst h
    obtain ⟨k, rfl⟩ : ∃ k, c = k + 1 := ⟨c - 1, by omega⟩
    have hk : k ≠ 0 := by omega
    simp [Mutex.unlock, hk]
  · intro h hc hq; dsimp only at h hc hq; subst h hc hq
    simp [Mutex.unlock, Mutex.dequeue]

/-- Witness for C4 (amended) at concrete mutexes. -/
theorem C4_lock_unlock_witness :
    Mutex.lock ⟨none, 0, []⟩ 5 = some ⟨some 5, 1, []⟩ ∧
    Mutex.lock ⟨some 5, 2, []⟩ 5 = some ⟨some 5, 3, []⟩ ∧
    Mutex.unlock ⟨some 5, 2, []⟩ 5 = some (⟨some 5, 1, []⟩, none, some 2) ∧
    Mutex.unlock ⟨some 5, 1, []⟩ 5 = some (⟨none, 0, []⟩, none, some 1) :=
  ⟨(C4_lock_unlock ⟨none, 0, []⟩ 5).1 rfl rfl,
   (C4_lock_unlock ⟨some 5, 2, []⟩ 5).2.1 rfl (by decide) (by decide),
   (C4_lock_unlock ⟨some 5, 2, []⟩ 5).2.2.1 rfl (by decide),
   (C4_lock_unlock ⟨some 5, 1, []⟩ 5).2.2.2 rfl rfl rfl⟩

/-- C9: `mutex_unlock(id, T2)` on a mutex locked by `T1 ≠ T2` returns the
"not owner" result (`none`, the same benign failure value the source
returns there) and leaves the whole mutex state unchanged. -/
theorem C9_foreign_unlock_noop (m : Mutex) (T1 T2 : ThreadId)
    (howner : m.owner = some T1) (hne : T2 ≠ T1) :
    m.unlock T2 = some (m, none, none) := by
  obtain ⟨o, c, q⟩ := m
  dsimp only at howner; subst howner
  simp [Mutex.unlock, Ne.symm hne]

/-- Witness for C9 at a concrete mutex. -/
theorem C9_foreign_unlock_noop_witness :
    Mutex.unlock ⟨some 1, 1, []⟩ 2 = some (⟨some 1, 1, []⟩, none, none) :=
  C9_foreign_unlock_noop ⟨some 1, 1, []⟩ 1 2 rfl (by decide)

/-- C8: condvar signalling is strictly FIFO and returns the mutex recorded
with each waiter: after `wait(T1, M)` then `wait(T2, M)` on an empty
condvar, the first signal yields `(T1, M)`, the second `(T2, M)`, the
third `none`, and `is_awaited` is then false; in general a signal pops the
front waiter and returns exactly its recorded mutex. -/
theorem C8_condvar_fifo (T1 T2 : ThreadId) (M : MutexId) (hne : T1 ≠ T2) :
    Condvar.wait ⟨[]⟩ T1 M = some ⟨[⟨T1, M⟩]⟩ ∧
    Condvar.wait ⟨[⟨T1, M⟩]⟩ T2 M = some ⟨[⟨T1, M⟩, ⟨T2, M⟩]⟩ ∧
    Condvar.signal ⟨[⟨T1, M⟩, ⟨T2, M⟩]⟩ = (⟨[⟨T2, M⟩]⟩, some (T1, M)) ∧
    Condvar.signal ⟨[⟨T2, M⟩]⟩ = (⟨[]⟩, some (T2, M)) ∧
    Condvar.signal ⟨[]⟩ = (⟨[]⟩, none) ∧
    Condvar.is_awaited ⟨[]⟩ = false ∧
    (∀ (w : CondvarWaiter) (rest : List CondvarWaiter),
      Condvar.signal ⟨w :: rest⟩ = (⟨rest⟩, some (w.thread, w.mutex))) := by
  refine ⟨by simp [Condvar.wait], ?_, rfl, rfl, rfl, rfl, fun w rest => rfl⟩
  simp [Condvar.wait, hne]

/-- Witness for C8 at concrete threads and a concrete condvar id. -/
theorem C8_condvar_fifo_witness :
    Condvar.wait ⟨[]⟩ 1 ⟨5, by decide⟩ = some ⟨[⟨1, ⟨5, by decide⟩⟩]⟩ ∧
    Condvar.wait ⟨[⟨1, ⟨5, by decide⟩⟩]⟩ 2 ⟨5, by decide⟩
      = some ⟨[⟨1, ⟨5, by decide⟩⟩, ⟨2, ⟨5, by decide⟩⟩]⟩ ∧
    Condvar.signal ⟨[⟨1, ⟨5, by decide⟩⟩, ⟨2, ⟨5, by decide⟩⟩]⟩
      = (⟨[⟨2, ⟨5, by decide⟩⟩]⟩, some (1, ⟨5, by decide⟩)) ∧
    Condvar.signal ⟨[⟨2, ⟨5, by decide⟩⟩]⟩ = (⟨[]⟩, some (2, ⟨5, by decide⟩)) ∧
    Condvar.signal ⟨[]⟩ = (⟨[]⟩, none) ∧
    Condvar.is_awaited ⟨[]⟩ = false ∧
    (∀ (w : CondvarWaiter) (rest : List CondvarWaiter),
      Condvar.signal ⟨w :: rest⟩ = (⟨rest⟩, some (w.thread, w.mutex))) :=
  C8_condvar_fifo 1 2 ⟨5, by decide⟩ (by decide)

/-- C6: for each identifier kind, building an identifier from 0-based
index `n` encodes the integer `n + 1` and decoding with `index` gives back
`n`; every identifier's encoded integer is at least 1; and constructing an
identifier from a raw integer `k` fails exactly when `k = 0`. -/
theorem C6_identifier_algebra (n k : Nat) (hn : n + 1 ≤ U32_MAX) :
    (∃ id, MutexId.new n = some id ∧ id.val = n + 1 ∧ MutexId.index id = n) ∧
    (∃ id, RwLockId.new n = some id ∧ id.val = n + 1 ∧ RwLockId.index id = n) ∧
    (∃ id, CondvarId.new n = some id ∧ id.val = n + 1 ∧ CondvarId.index id = n) ∧
    (∀ id : MutexId, 1 ≤ id.val) ∧
    (∀ id : RwLockId, 1 ≤ id.val) ∧
    (∀ id : CondvarId, 1 ≤ id.val) ∧
    (MutexId.from_u32 k = none ↔ k = 0) ∧
    (RwLockId.from_u32 k = none ↔ k = 0) ∧
    (CondvarId.from_u32 k = none ↔ k = 0) := by
  refine ⟨⟨⟨n + 1, Nat.succ_pos n⟩, ?_, rfl, rfl⟩,
          ⟨⟨n + 1, Nat.succ_pos n⟩, ?_, rfl, rfl⟩,
          ⟨⟨n + 1, Nat.succ_pos n⟩, ?_, rfl, rfl⟩,
          fun id => id.pos, fun id => id.pos, fun id => id.pos, ?_, ?_, ?_⟩
  · simp [MutexId.new, hn]
  · simp [RwLockId.new, hn]
  · simp [CondvarId.new, hn]
  · constructor
    · intro h; by_contra hk
      simp [MutexId.from_u32, Nat.pos_of_ne_zero hk] at h
    · intro h; subst h; simp [MutexId.from_u32]
  · constructor
    · intro h; by_contra hk
      simp [RwLockId.from_u32, Nat.pos_of_ne_zero hk] at h
    · intro h; subst h; simp [RwLockId.from_u32]
  · constructor
    · intro h; by_contra hk
      simp [CondvarId.from_u32, Nat.pos_of_ne_zero hk] at h
    · intro h; subst h; simp [CondvarId.from_u32]

/-- A successful `checked_add` returns the exact sum. -/
theorem checkedAddUsize_eq (a b c : Nat) (h : checkedAddUsize a b = some c) : c = a + b := by
  unfold checkedAddUsize at h
  split at h
  · exact (Option.some.inj h).symm
  · exact absurd h (by simp)

/-- Every single mutex operation preserves `owner` set ⇔ `lock_count > 0`. -/
theorem mutex_inv_step (op : MutexOp) (m m1 : Mutex)
    (hm : m.owner.isSome ↔ 0 < m.lock_count) (h : m.applyOp op = some m1) :
    m1.owner.isSome ↔ 0 < m1.lock_count := by
  obtain ⟨o, c, q⟩ := m
  cases op with
  | lockOp t =>
      cases o with
      | none =>
          simp only [Mutex.applyOp, Mutex.lock] at h
          cases hca : checkedAddUsize c 1 with
          | none => rw [hca] at h; exact absurd h (by simp)
          | some cc =>
              rw [hca] at h
              simp only [Option.map_some'] at h
              have hcc := checkedAddUsize_eq c 1 cc hca
              cases h
              simp; omega
      | some cur =>
          simp only [Mutex.applyOp, Mutex.lock] at h
          by_cases ht : t = cur
          · simp only [ht, if_true] at h
            by_cases hc : 0 < c
            · simp only [hc, if_true] at h
              cases hca : checkedAddUsize c 1 with
              | none => rw [hca] at h; exact absurd h (by simp)
              | some cc =>
                  rw [hca] at h
                  simp only [Option.map_some'] at h
                  have hcc := checkedAddUsize_eq c 1 cc hca
                  cases h
                  simp; omega
            · simp [hc] at h
          · simp [ht] at h
  | unlockOp t =>
      simp only [Mutex.applyOp, Mutex.unlock] at h
      cases o with
      | none =>
          simp only [Option.map_some'] at h
          cases h; exact hm
      | some cur =>
          by_cases ht : cur = t
          · simp only [ht, if_true] at h
            cases c with
            | zero => exact absurd h (by simp)
            | succ k =>
                by_cases hk : k = 0
                · subst hk
                  simp only [if_true] at h
                  cases q with
                  | nil =>
                      simp only [Mutex.dequeue, Option.map_some'] at h
                      cases h; simp
                  | cons Tn rest =>
                      simp only [Mutex.dequeue, Mutex.lock, checkedAddUsize] at h
                      simp only [show 0 + 1 ≤ USIZE_MAX by decide, if_true,
                        Option.map_some'] at h
                      cases h; simp
                · simp only [hk, if_false, Option.map_some'] at h
                  cases h; simp; omega
          · simp only [ht, if_false, Option.map_some'] at h
            cases h; exact hm
  | enqueueOp t =>
      simp only [Mutex.applyOp, Mutex.enqueue, Mutex.is_locked] at h
      cases o with
      | none => exact absurd h (by simp)
      | some cur =>
          simp only [Option.isSome_some, if_true] at h
          cases h; simpa using hm
  | dequeueOp =>
      simp only [Mutex.applyOp, Mutex.dequeue] at h
      cases q with
      | nil => cases h; exact hm
      | cons Tn rest => cases h; simpa using hm

/-- The invariant holds after every successful run of a mutex operation
sequence from a given invariant-satisfying start state. -/
theorem mutex_inv_steps (ops : List MutexOp) (m m1 : Mutex)
    (hm : m.owner.isSome ↔ 0 < m.lock_count) (h : m.applyOps ops = some m1) :
    m1.owner.isSome ↔ 0 < m1.lock_count := by
  induction ops generalizing m with
  | nil =>
      simp only [Mutex.applyOps] at h
      cases h; exact hm
  | cons op rest ih =>
      simp only [Mutex.applyOps] at h
      cases hop : m.applyOp op with
      | none => rw [hop] at h; exact absurd h (by simp)
      | some m2 =>
          rw [hop] at h
          exact ih m2 (mutex_inv_step op m m2 hm hop) h

/-- C3: after every sequence of mutex operations (lock, unlock, enqueue,
dequeue) run from a freshly created mutex in which every stated
precondition (modelled by the source's panics) is respected, the owner is
set iff the lock count is positive. -/
theorem C3_mutex_owner_iff_count (ops : List MutexOp) (m : Mutex)
    (h : Mutex.applyOps Mutex.default ops = some m) :
    m.owner.isSome ↔ 0 < m.lock_count :=
  mutex_inv_steps ops Mutex.default m (by simp [Mutex.default]) h

/-- Witness for C3 on the sequence lock, lock, unlock. -/
theorem C3_mutex_owner_iff_count_witness :
    ((⟨some 1, 1, []⟩ : Mutex).owner.isSome ↔ 0 < (⟨some 1, 1, []⟩ : Mutex).lock_count) :=
  C3_mutex_owner_iff_count [.lockOp 1, .lockOp 1, .unlockOp 1] ⟨some 1, 1, []⟩ (by decide)

/-- `lookupR` misses exactly when no entry has the key. -/
theorem lookupR_none_iff (l : List (ThreadId × Nat)) (t : ThreadId) :
    lookupR l t = none ↔ ∀ p ∈ l, p.1 ≠ t := by
  induction l with
  | nil => simp [lookupR]
  | cons p rest ih =>
      obtain ⟨k, c⟩ := p
      by_cases hk : k = t
      · subst hk; simp [lookupR]
      · simp [lookupR, hk, ih]

/-- Updating an absent key appends the fresh entry. -/
theorem updateR_absent (l : List (ThreadId × Nat)) (t : ThreadId) (c : Nat)
    (h : lookupR l t = none) : updateR l t c = l ++ [(t, c)] := by
  induction l with
  | nil => simp [updateR]
  | cons p rest ih =>
      obtain ⟨k, c0⟩ := p
      by_cases hk : k = t
      · subst hk; simp [lookupR] at h
      · simp only [lookupR, hk, if_false] at h
        simp [updateR, hk, ih h]

/-- Updating a present key keeps the key multiset of the map. -/
theorem map_fst_updateR_present (l : List (ThreadId × Nat)) (t : ThreadId) (c : Nat)
    (h : (lookupR l t).isSome) : (updateR l t c).map Prod.fst = l.map Prod.fst := by
  induction l with
  | nil => simp [lookupR] at h
  | cons p rest ih =>
      obtain ⟨k, c0⟩ := p
      by_cases hk : k = t
      · subst hk; simp [updateR]
      · simp only [lookupR, hk, if_false] at h
        simp [updateR, hk, ih h]

/-- A key that never occurs in the map is not found. -/
theorem lookupR_eq_none_of_count (l : List (ThreadId × Nat)) (t : ThreadId)
    (h : (l.map Prod.fst).count t = 0) : lookupR l t = none := by
  rw [lookupR_none_iff]
  intro p hp hpt
  have : t ∈ l.map Prod.fst := List.mem_map.mpr ⟨p, hp, hpt⟩
  exact absurd (List.count_eq_zero.mp h) (by simp [this])

/-- Removing a key never increases any key count. -/
theorem count_map_fst_removeR_le (l : List (ThreadId × Nat)) (t u : ThreadId) :
    ((removeR l t).map Prod.fst).count u ≤ (l.map Prod.fst).count u :=
  ((List.filter_sublist l).map Prod.fst).count_le u

/-- Splitting a zero occupancy count into its four components. -/
theorem occ_eq_zero_parts (rw : RwLock) (t : ThreadId) (h : rw.occ t = 0) :
    rw.writer ≠ some t ∧ (rw.readers.map Prod.fst).count t = 0 ∧
    rw.writer_queue.count t = 0 ∧ rw.reader_queue.count t = 0 := by
  unfold RwLock.occ at h
  by_cases hw : rw.writer = some t
  · simp only [hw, if_true] at h; omega
  · simp only [hw, if_false] at h
    exact ⟨hw, by omega, by omega, by omega⟩

/-- C5 counterexample: the operation sequence writer_lock(T1),
enqueue_and_block_reader(T2), enqueue_and_block_reader(T2) respects every
stated precondition (the rwlock is write-locked at both enqueues), yet
afterwards T2 occurs twice in `reader_queue`, violating the claimed
occupancy invariant. -/
theorem C5_counterexample :
    RwLock.applyOps RwLock.default
        [.writerLockOp 1, .enqueueReaderOp 2, .enqueueReaderOp 2]
      = some ⟨some 1, [], [], [2, 2]⟩ ∧
    ¬ (⟨some 1, [], [], [2, 2]⟩ : RwLock).threadsDisjoint := by
  refine ⟨by decide, fun h => ?_⟩
  have h2 := h 2
  simp [RwLock.occ, List.count_cons] at h2

/-- C5 (amended): each rwlock operation preserves the invariant that a
thread occurs in at most one of `{writer, readers, writer_queue,
reader_queue}` (and at most once in each queue), provided that the
operations which add a thread — reader_lock, writer_lock and the two
enqueues — are only applied with a thread that does not already occur in
the rwlock; the stated preconditions alone do not prevent, e.g., a double
enqueue of one thread. -/
theorem C5_rwlock_thread_disjoint (rw rw1 : RwLock) (op : RwOp)
    (hinv : rw.threadsDisjoint) (h : rw.applyOp op = some rw1)
    (hfresh : op.freshFor rw) : rw1.threadsDisjoint := by
  obtain ⟨w, rs, wq, rq⟩ := rw
  cases op with
  | readerLockOp t =>
      obtain ⟨hwt, hc, hwq, hrq⟩ := occ_eq_zero_parts _ t hfresh
      simp only [RwLock.applyOp, RwLock.reader_lock, RwLock.is_write_locked] at h
      cases w with
      | some W => simp at h
      | none =>
          have hlk : lookupR rs t = none := lookupR_eq_none_of_count rs t hc
          simp only [Option.isSome_none, Bool.false_eq_true, if_false, hlk,
            Option.getD_none, checkedAddUsize] at h
          split at h
          · simp only [Option.map_some'] at h
            cases h
            intro u
            have hu := hinv u
            simp only [RwLock.occ, updateR_absent rs t _ hlk] at *
            by_cases hut : u = t
            · subst hut
              simp [List.count_append, hc, hwq, hrq]
            · simp only [List.map_append, List.count_append] at *
              have : ([(t, 0 + 1)].map Prod.fst).count u = 0 := by
                simp [List.count_cons, Ne.symm hut]
              omega
          · simp at h
  | readerUnlockOp t =>
      simp only [RwLock.applyOp, RwLock.reader_unlock] at h
      cases hlk : lookupR rs t with
      | none =>
          rw [hlk] at h
          cases h; exact hinv
      | some count =>
          rw [hlk] at h
          by_cases hc0 : count - 1 = 0
          · simp only [hc0, if_true] at h
            cases h
            intro u
            have hu := hinv u
            simp only [RwLock.occ] at *
            have := count_map_fst_removeR_le rs t u
            omega
          · simp only [hc0, if_false] at h
            cases h
            intro u
            have hu := hinv u
            simp only [RwLock.occ] at *
            rw [map_fst_updateR_present rs t _ (by simp [hlk])]
            omega
  | enqueueReaderOp t =>
      obtain ⟨hwt, hc, hwq, hrq⟩ := occ_eq_zero_parts _ t hfresh
      simp only [RwLock.applyOp, RwLock.enqueue_and_block_reader,
        RwLock.is_write_locked] at h
      cases w with
      | none => simp at h
      | some W =>
          simp only [Option.isSome_some, if_true, Option.map_some'] at h
          cases h
          intro u
          have hu := hinv u
          simp only [RwLock.occ, List.count_append] at *
          by_cases hut : u = t
          · subst hut
            have hW : ¬ ((some W : Option ThreadId) = some u) := by simpa using hwt
            rw [if_neg hW]
            simp only [hrq, hc, hwq]
            simp [List.count_cons]
          · have : [t].count u = 0 := by simp [List.count_cons, Ne.symm hut]
            omega
  | dequeueReaderOp =>
      simp only [RwLock.applyOp, RwLock.dequeue_reader] at h
      cases rq with
      | nil => cases h; exact hinv
      | cons x rest =>
          cases h
          intro u
          have hu := hinv u
          simp only [RwLock.occ, List.count_cons] at *
          omega
  | writerLockOp t =>
      obtain ⟨hwt, hc, hwq, hrq⟩ := occ_eq_zero_parts _ t hfresh
      simp only [RwLock.applyOp, RwLock.writer_lock, RwLock.is_locked] at h
      split at h
      · simp at h
      · simp only [Option.some.injEq] at h
        cases h
        intro u
        have hu := hinv u
        simp only [RwLock.occ] at *
        by_cases hut : u = t
        · subst hut
          simp [hc, hwq, hrq]
        · have h1 : (if (some t : Option ThreadId) = some u then 1 else 0) = 0 := by
            simp [Ne.symm hut]
          have h2 : (if w = some u then 1 else 0) ≥ 0 := Nat.zero_le _
          omega
  | writerUnlockOp =>
      simp only [RwLock.applyOp, RwLock.writer_unlock] at h
      cases h
      intro u
      have hu := hinv u
      simp only [RwLock.occ] at *
      have : (if (none : Option ThreadId) = some u then 1 else 0) = 0 := by simp
      omega
  | enqueueWriterOp t =>
      obtain ⟨hwt, hc, hwq, hrq⟩ := occ_eq_zero_parts _ t hfresh
      simp only [RwLock.applyOp, RwLock.enqueue_and_block_writer, RwLock.is_locked] at h
      split at h
      · simp only [Option.map_some'] at h
        cases h
        intro u
        have hu := hinv u
        simp only [RwLock.occ, List.count_append] at *
        by_cases hut : u = t
        · subst hut
          have hW : ¬ (w = some u) := by simpa using hwt
          rw [if_neg hW]
          simp only [hwq, hc, hrq]
          simp [List.count_cons]
        · have : [t].count u = 0 := by simp [List.count_cons, Ne.symm hut]
          omega
      · simp at h
  | dequeueWriterOp =>
      simp only [RwLock.applyOp, RwLock.dequeue_writer] at h
      cases wq with
      | nil => cases h; exact hinv
      | cons x rest =>
          cases h
          intro u
          have hu := hinv u
          simp only [RwLock.occ, List.count_cons] at *
          omega

/-- Witness for C5 (amended): a fresh reader locking a free rwlock. -/
theorem C5_rwlock_thread_disjoint_witness :
    (⟨none, [(1, 1)], [], []⟩ : RwLock).threadsDisjoint :=
  C5_rwlock_thread_disjoint RwLock.default ⟨none, [(1, 1)], [], []⟩ (.readerLockOp 1)
    (fun t => by simp [RwLock.default, RwLock.occ]) (by decide) (by simp [RwOp.freshFor, RwLock.occ, RwLock.default])

/-- Looking up the key just updated returns the new value. -/
theorem lookupR_updateR_self (l : List (ThreadId × Nat)) (t : ThreadId) (c : Nat) :
    lookupR (updateR l t c) t = some c := by
  induction l with
  | nil => simp [updateR, lookupR]
  | cons p rest ih =>
      obtain ⟨k, c0⟩ := p
      by_cases hk : k = t
      · subst hk; simp [updateR, lookupR]
      · simp [updateR, lookupR, hk, ih]

/-- Two successive updates of a key collapse to the second. -/
theorem updateR_updateR (l : List (ThreadId × Nat)) (t : ThreadId) (a b : Nat) :
    updateR (updateR l t a) t b = updateR l t b := by
  induction l with
  | nil => simp [updateR]
  | cons p rest ih =>
      obtain ⟨k, c0⟩ := p
      by_cases hk : k = t
      · subst hk; simp [updateR]
      · simp [updateR, hk, ih]

/-- Rewriting a key with its current value changes nothing. -/
theorem updateR_lookup_self (l : List (ThreadId × Nat)) (t : ThreadId) (c : Nat)
    (h : lookupR l t = some c) : updateR l t c = l := by
  induction l with
  | nil => simp [lookupR] at h
  | cons p rest ih =>
      obtain ⟨k, c0⟩ := p
      by_cases hk : k = t
      · subst hk
        simp only [lookupR, if_true] at h
        have : c0 = c := by simpa using h
        simp [updateR, this]
      · simp only [lookupR, hk, if_false] at h
        simp [updateR, hk, ih h]

/-- Removing an absent key changes nothing. -/
theorem removeR_of_none (l : List (ThreadId × Nat)) (t : ThreadId)
    (h : lookupR l t = none) : removeR l t = l := by
  induction l with
  | nil => rfl
  | cons p rest ih =>
      obtain ⟨k, c0⟩ := p
      by_cases hk : k = t
      · subst hk; simp [lookupR] at h
      · simp only [lookupR, hk, if_false] at h
        have hrest := ih h
        unfold removeR at hrest ⊢
        rw [List.filter_cons, hrest]
        simp [hk]

/-- Removing the freshly inserted entry of an absent key restores the map. -/
theorem removeR_updateR_absent (l : List (ThreadId × Nat)) (t : ThreadId) (c : Nat)
    (h : lookupR l t = none) : removeR (updateR l t c) t = l := by
  rw [updateR_absent l t c h]
  unfold removeR
  rw [List.filter_append]
  have h1 : List.filter (fun p => decide (p.1 ≠ t)) [(t, c)] = [] := by simp
  have h2 : List.filter (fun p => decide (p.1 ≠ t)) l = l := removeR_of_none l t h
  rw [h1, h2, List.append_nil]

/-- One `reader_lock` step on a lock with no writer. -/
theorem reader_lock_step (rs : List (ThreadId × Nat)) (wq rq : List ThreadId) (T : ThreadId)
    (hov : (lookupR rs T).getD 0 + 1 ≤ USIZE_MAX) :
    RwLock.reader_lock ⟨none, rs, wq, rq⟩ T
      = some ⟨none, updateR rs T ((lookupR rs T).getD 0 + 1), wq, rq⟩ := by
  simp [RwLock.reader_lock, RwLock.is_write_locked, checkedAddUsize, hov]

/-- `k` reader locks starting from a held count `c` raise it to `c + k`. -/
theorem readerLockN_present (T : ThreadId) (k : Nat) :
    ∀ (rs : List (ThreadId × Nat)) (wq rq : List ThreadId) (c : Nat),
      lookupR rs T = some c → c + k ≤ USIZE_MAX →
      readerLockN ⟨none, rs, wq, rq⟩ T k = some ⟨none, updateR rs T (c + k), wq, rq⟩ := by
  induction k with
  | zero =>
      intro rs wq rq c hl hov
      simp [readerLockN, updateR_lookup_self rs T c hl]
  | succ k ih =>
      intro rs wq rq c hl hov
      have hstep := reader_lock_step rs wq rq T (by rw [hl]; simpa using by omega)
      rw [hl] at hstep
      simp only [Option.getD_some] at hstep
      simp only [readerLockN, hstep]
      rw [ih (updateR rs T (c + 1)) wq rq (c + 1) (lookupR_updateR_self rs T (c + 1)) (by omega)]
      rw [updateR_updateR]
      have : c + 1 + k = c + (k + 1) := by omega
      rw [this]

/-- `k` reader unlocks starting from count `c + k` lower it back to `c ≥ 1`,
each returning `true`. -/
theorem readerUnlockN_present (T : ThreadId) (k : Nat) :
    ∀ (rs : List (ThreadId × Nat)) (wq rq : List ThreadId) (c : Nat),
      1 ≤ c → lookupR rs T = some (c + k) →
      readerUnlockN ⟨none, rs, wq, rq⟩ T k = (⟨none, updateR rs T c, wq, rq⟩, true) := by
  induction k with
  | zero =>
      intro rs wq rq c hc hl
      simp [readerUnlockN, updateR_lookup_self rs T c (by simpa using hl)]
  | succ k ih =>
      intro rs wq rq c hc hl
      have hne : ¬ (c + (k + 1) - 1 = 0) := by omega
      simp only [readerUnlockN, RwLock.reader_unlock, hl, hne, if_false]
      have harith : c + (k + 1) - 1 = c + k := by omega
      rw [harith]
      rw [ih (updateR rs T (c + k)) wq rq c hc (lookupR_updateR_self rs T (c + k))]
      rw [updateR_updateR]
      simp

/-- Unfolding equation for one unlock step. -/
theorem readerUnlockN_succ (rw : RwLock) (T : ThreadId) (k : Nat) :
    readerUnlockN rw T (k + 1)
      = ((readerUnlockN (rw.reader_unlock T).1 T k).1,
         (rw.reader_unlock T).2 && (readerUnlockN (rw.reader_unlock T).1 T k).2) := rfl

/-- One `reader_unlock` step that decrements a still-positive count. -/
theorem reader_unlock_step_update (rs : List (ThreadId × Nat)) (wq rq : List ThreadId)
    (T : ThreadId) (count : Nat) (hl : lookupR rs T = some count) (hne : ¬ (count - 1 = 0)) :
    RwLock.reader_unlock ⟨none, rs, wq, rq⟩ T
      = (⟨none, updateR rs T (count - 1), wq, rq⟩, true) := by
  simp [RwLock.reader_unlock, hl, hne]

/-- One `reader_unlock` step that removes the entry at count 1. -/
theorem reader_unlock_step_remove (rs : List (ThreadId × Nat)) (wq rq : List ThreadId)
    (T : ThreadId) (count : Nat) (hl : lookupR rs T = some count) (hz : count - 1 = 0) :
    RwLock.reader_unlock ⟨none, rs, wq, rq⟩ T = (⟨none, removeR rs T, wq, rq⟩, true) := by
  simp [RwLock.reader_unlock, hl, hz]

/-- `j + 1` reader unlocks from count `j + 1` on a key absent from `rs`
remove the entry entirely, each returning `true`. -/
theorem readerUnlockN_drain (T : ThreadId) (j : Nat) :
    ∀ (rs : List (ThreadId × Nat)) (wq rq : List ThreadId),
      lookupR rs T = none →
      readerUnlockN ⟨none, updateR rs T (j + 1), wq, rq⟩ T (j + 1) = (⟨none, rs, wq, rq⟩, true) := by
  induction j with
  | zero =>
      intro rs wq rq hl
      rw [readerUnlockN_succ,
        reader_unlock_step_remove (updateR rs T (0 + 1)) wq rq T (0 + 1)
          (lookupR_updateR_self rs T (0 + 1)) rfl]
      dsimp only
      rw [removeR_updateR_absent rs T (0 + 1) hl]
      simp [readerUnlockN]
  | succ j ih =>
      intro rs wq rq hl
      rw [readerUnlockN_succ,
        reader_unlock_step_update (updateR rs T (j + 1 + 1)) wq rq T (j + 1 + 1)
          (lookupR_updateR_self rs T (j + 1 + 1)) (by omega)]
      dsimp only
      have harith : j + 1 + 1 - 1 = j + 1 := by omega
      rw [harith, updateR_updateR]
      rw [ih rs wq rq hl]
      simp

/-- C7: on an rwlock that is not write-locked, `k ≥ 1` reader locks by `T`
followed by `k` reader unlocks by `T` restore the rwlock to exactly its
prior state with every unlock returning `true`; and a reader unlock by a
thread `T2` holding no read lock returns `false` and changes nothing. The
hypotheses on `readers` (each held count is at least 1) and on overflow
are the source's data-model invariant and its `checked_add` bound. -/
theorem C7_reader_lock_unlock_roundtrip (rw : RwLock) (T T2 : ThreadId) (k : Nat)
    (hk : 1 ≤ k) (hw : rw.writer = none)
    (hpos : ∀ c, lookupR rw.readers T = some c → 1 ≤ c)
    (hov : (lookupR rw.readers T).getD 0 + k ≤ USIZE_MAX)
    (hT2 : lookupR rw.readers T2 = none) :
    (∃ rw1, readerLockN rw T k = some rw1 ∧ readerUnlockN rw1 T k = (rw, true)) ∧
    rw.reader_unlock T2 = (rw, false) := by
  obtain ⟨w, rs, wq, rq⟩ := rw
  dsimp only at hw hpos hov hT2
  subst hw
  refine ⟨?_, by simp [RwLock.reader_unlock, hT2]⟩
  cases hl : lookupR rs T with
  | some c =>
      have hc := hpos c hl
      rw [hl] at hov
      simp only [Option.getD_some] at hov
      refine ⟨⟨none, updateR rs T (c + k), wq, rq⟩,
        readerLockN_present T k rs wq rq c hl hov, ?_⟩
      have := readerUnlockN_present T k (updateR rs T (c + k)) wq rq c hc
        (lookupR_updateR_self rs T (c + k))
      rw [this, updateR_updateR, updateR_lookup_self rs T c hl]
  | none =>
      rw [hl] at hov
      simp only [Option.getD_none, Nat.zero_add] at hov
      obtain ⟨j, rfl⟩ : ∃ j, k = j + 1 := ⟨k - 1, by omega⟩
      refine ⟨⟨none, updateR rs T (j + 1), wq, rq⟩, ?_, readerUnlockN_drain T j rs wq rq hl⟩
      have hstep := reader_lock_step rs wq rq T (by rw [hl]; simpa using by omega)
      rw [hl] at hstep
      simp only [Option.getD_none, Nat.zero_add] at hstep
      simp only [readerLockN, hstep]
      rw [readerLockN_present T j (updateR rs T 1) wq rq 1 (lookupR_updateR_self rs T 1)
        (by omega)]
      rw [updateR_updateR]
      have : 1 + j = j + 1 := by omega
      rw [this]

/-- Witness for C7: two locks and two unlocks by thread 1 on a fresh
rwlock, plus a failing unlock by thread 2. -/
theorem C7_reader_lock_unlock_roundtrip_witness :
    (∃ rw1, readerLockN RwLock.default 1 2 = some rw1 ∧
      readerUnlockN rw1 1 2 = (RwLock.default, true)) ∧
    RwLock.reader_unlock RwLock.default 2 = (RwLock.default, false) :=
  C7_reader_lock_unlock_roundtrip RwLock.default 1 2 2 (by decide) rfl
    (fun c h => by simp [RwLock.default, lookupR] at h) (by decide) rfl

/-- Appending one element does not change earlier (or out-of-range) slots. -/
theorem get?_append_singleton_ne {α : Type} (l : List α) (x : α) (j : Nat)
    (h : j ≠ l.length) : (l ++ [x]).get? j = l.get? j := by
  rcases Nat.lt_or_ge j l.length with hj | hj
  · exact List.get?_append hj
  · have hj1 : l.length < j := by omega
    have h1 : (l ++ [x]).get? j = none :=
      List.get?_eq_none.mpr (by simp [List.length_append]; omega)
    have h2 : l.get? j = none := List.get?_eq_none.mpr (by omega)
    rw [h1, h2]

/-- Frame of a single-slot write to the `mutexes` arena. -/
theorem setMutex_frame (s : SynchronizationState) (id : MutexId) (m : Mutex) (j : Nat)
    (hj : j ≠ id.index) : (s.setMutex id m).mutexes.get? j = s.mutexes.get? j :=
  List.get?_set_ne m s.mutexes (Ne.symm hj)

/-- Frame of a single-slot write to the `rwlocks` arena. -/
theorem setRwLock_frame (s : SynchronizationState) (id : RwLockId) (rw : RwLock) (j : Nat)
    (hj : j ≠ id.index) : (s.setRwLock id rw).rwlocks.get? j = s.rwlocks.get? j :=
  List.get?_set_ne rw s.rwlocks (Ne.symm hj)

/-- Frame of a single-slot write to the `condvars` arena. -/
theorem setCondvar_frame (s : SynchronizationState) (id : CondvarId) (cv : Condvar) (j : Nat)
    (hj : j ≠ id.index) : (s.setCondvar id cv).condvars.get? j = s.condvars.get? j :=
  List.get?_set_ne cv s.condvars (Ne.symm hj)

/-- C10: every operation mutates at most the arena slot of the identifier
it is given (for creates, the freshly appended slot): every other mutex,
rwlock and condvar of the aggregate state is unchanged. The scheduler
effects (block/unblock requests) live outside the state and are returned
separately. -/
theorem C10_frame_per_op (s s1 : SynchronizationState) (op : SyncOp)
    (h : applySyncOp s op = some s1) :
    (∀ j, some j ≠ op.mutexIdx s → s1.mutexes.get? j = s.mutexes.get? j) ∧
    (∀ j, some j ≠ op.rwlockIdx s → s1.rwlocks.get? j = s.rwlocks.get? j) ∧
    (∀ j, some j ≠ op.condvarIdx s → s1.condvars.get? j = s.condvars.get? j) := by
  cases op with
  | mutexCreateOp =>
      simp only [applySyncOp, mutex_create] at h
      cases hn : MutexId.new s.mutexes.length with
      | none => rw [hn] at h; exact absurd h (by simp)
      | some id =>
          rw [hn] at h
          simp only [Option.map_some'] at h
          cases h
          refine ⟨?_, fun j _ => rfl, fun j _ => rfl⟩
          intro j hj
          exact get?_append_singleton_ne _ _ _ (fun e => hj (by simp [SyncOp.mutexIdx, e]))
  | mutexLockOp id t =>
      simp only [applySyncOp, mutex_lock] at h
      cases hg : s.getMutex id with
      | none => rw [hg] at h; exact absurd h (by simp)
      | some m =>
          rw [hg] at h; dsimp only at h
          cases hl : m.lock t with
          | none => rw [hl] at h; exact absurd h (by simp)
          | some m1 =>
              rw [hl] at h
              simp only [Option.map_some'] at h
              cases h
              refine ⟨?_, fun j _ => rfl, fun j _ => rfl⟩
              intro j hj
              exact setMutex_frame s id m1 j (fun e => hj (by simp [SyncOp.mutexIdx, e]))
  | mutexUnlockOp id t =>
      simp only [applySyncOp, mutex_unlock] at h
      cases hg : s.getMutex id with
      | none => rw [hg] at h; exact absurd h (by simp)
      | some m =>
          rw [hg] at h; dsimp only at h
          cases hu : m.unlock t with
          | none => rw [hu] at h; exact absurd h (by simp)
          | some r =>
              rw [hu] at h
              simp only [Option.map_some'] at h
              cases h
              refine ⟨?_, fun j _ => rfl, fun j _ => rfl⟩
              intro j hj
              exact setMutex_frame s id r.1 j (fun e => hj (by simp [SyncOp.mutexIdx, e]))
  | mutexEnqueueOp id t =>
      simp only [applySyncOp, mutex_enqueue] at h
      cases hg : s.getMutex id with
      | none => rw [hg] at h; exact absurd h (by simp)
      | some m =>
          rw [hg] at h; dsimp only at h
          cases he : m.enqueue t with
          | none => rw [he] at h; exact absurd h (by simp)
          | some m1 =>
              rw [he] at h
              simp only [Option.map_some'] at h
              cases h
              refine ⟨?_, fun j _ => rfl, fun j _ => rfl⟩
              intro j hj
              exact setMutex_frame s id m1 j (fun e => hj (by simp [SyncOp.mutexIdx, e]))
  | mutexDequeueOp id =>
      simp only [applySyncOp, mutex_dequeue] at h
      cases hg : s.getMutex id with
      | none => rw [hg] at h; exact absurd h (by simp)
      | some m =>
          rw [hg] at h; dsimp only at h
          simp only [Option.map_some'] at h
          cases h
          refine ⟨?_, fun j _ => rfl, fun j _ => rfl⟩
          intro j hj
          exact setMutex_frame s id m.dequeue.1 j (fun e => hj (by simp [SyncOp.mutexIdx, e]))
  | rwlockCreateOp =>
      simp only [applySyncOp, rwlock_create] at h
      cases hn : RwLockId.new s.rwlocks.length with
      | none => rw [hn] at h; exact absurd h (by simp)
      | some id =>
          rw [hn] at h
          simp only [Option.map_some'] at h
          cases h
          refine ⟨fun j _ => rfl, ?_, fun j _ => rfl⟩
          intro j hj
          exact get?_append_singleton_ne _ _ _ (fun e => hj (by simp [SyncOp.rwlockIdx, e]))
  | rwlockReaderLockOp id t =>
      simp only [applySyncOp, rwlock_reader_lock] at h
      cases hg : s.getRwLock id with
      | none => rw [hg] at h; exact absurd h (by simp)
      | some rw0 =>
          rw [hg] at h; dsimp only at h
          cases hl : rw0.reader_lock t with
          | none => rw [hl] at h; exact absurd h (by simp)
          | some rw1 =>
              rw [hl] at h
              simp only [Option.map_some'] at h
              cases h
              refine ⟨fun j _ => rfl, ?_, fun j _ => rfl⟩
              intro j hj
              exact setRwLock_frame s id rw1 j (fun e => hj (by simp [SyncOp.rwlockIdx, e]))
  | rwlockReaderUnlockOp id t =>
      simp only [applySyncOp, rwlock_reader_unlock] at h
      cases hg : s.getRwLock id with
      | none => rw [hg] at h; exact absurd h (by simp)
      | some rw0 =>
          rw [hg] at h; dsimp only at h
          simp only [Option.map_some'] at h
          cases h
          refine ⟨fun j _ => rfl, ?_, fun j _ => rfl⟩
          intro j hj
          exact setRwLock_frame s id (rw0.reader_unlock t).1 j
            (fun e => hj (by simp [SyncOp.rwlockIdx, e]))
  | rwlockEnqueueReaderOp id t =>
      simp only [applySyncOp, rwlock_enqueue_and_block_reader] at h
      cases hg : s.getRwLock id with
      | none => rw [hg] at h; exact absurd h (by simp)
      | some rw0 =>
          rw [hg] at h; dsimp only at h
          cases he : rw0.enqueue_and_block_reader t with
          | none => rw [he] at h; exact absurd h (by simp)
          | some r =>
              rw [he] at h
              simp only [Option.map_some'] at h
              cases h
              refine ⟨fun j _ => rfl, ?_, fun j _ => rfl⟩
              intro j hj
              exact setRwLock_frame s id r.1 j (fun e => hj (by simp [SyncOp.rwlockIdx, e]))
  | rwlockDequeueReaderOp id =>
      simp only [applySyncOp, rwlock_dequeue_reader] at h
      cases hg : s.getRwLock id with
      | none => rw [hg] at h; exact absurd h (by simp)
      | some rw0 =>
          rw [hg] at h; dsimp only at h
          simp only [Option.map_some'] at h
          cases h
          refine ⟨fun j _ => rfl, ?_, fun j _ => rfl⟩
          intro j hj
          exact setRwLock_frame s id rw0.dequeue_reader.1 j
            (fun e => hj (by simp [SyncOp.rwlockIdx, e]))
  | rwlockWriterLockOp id t =>
      simp only [applySyncOp, rwlock_writer_lock] at h
      cases hg : s.getRwLock id with
      | none => rw [hg] at h; exact absurd h (by simp)
      | some rw0 =>
          rw [hg] at h; dsimp only at h
          cases hl : rw0.writer_lock t with
          | none => rw [hl] at h; exact absurd h (by simp)
          | some rw1 =>
              rw [hl] at h
              simp only [Option.map_some'] at h
              cases h
              refine ⟨fun j _ => rfl, ?_, fun j _ => rfl⟩
              intro j hj
              exact setRwLock_frame s id rw1 j (fun e => hj (by simp [SyncOp.rwlockIdx, e]))
  | rwlockWriterUnlockOp id =>
      simp only [applySyncOp, rwlock_writer_unlock] at h
      cases hg : s.getRwLock id with
      | none => rw [hg] at h; exact absurd h (by simp)
      | some rw0 =>
          rw [hg] at h; dsimp only at h
          simp only [Option.map_some'] at h
          cases h
          refine ⟨fun j _ => rfl, ?_, fun j _ => rfl⟩
          intro j hj
          exact setRwLock_frame s id rw0.writer_unlock.1 j
            (fun e => hj (by simp [SyncOp.rwlockIdx, e]))
  | rwlockEnqueueWriterOp id t =>
      simp only [applySyncOp, rwlock_enqueue_and_block_writer] at h
      cases hg : s.getRwLock id with
      | none => rw [hg] at h; exact absurd h (by simp)
      | some rw0 =>
          rw [hg] at h; dsimp only at h
          cases he : rw0.enqueue_and_block_writer t with
          | none => rw [he] at h; exact absurd h (by simp)
          | some r =>
              rw [he] at h
              simp only [Option.map_some'] at h
              cases h
              refine ⟨fun j _ => rfl, ?_, fun j _ => rfl⟩
              intro j hj
              exact setRwLock_frame s id r.1 j (fun e => hj (by simp [SyncOp.rwlockIdx, e]))
  | rwlockDequeueWriterOp id =>
      simp only [applySyncOp, rwlock_dequeue_writer] at h
      cases hg : s.getRwLock id with
      | none => rw [hg] at h; exact absurd h (by simp)
      | some rw0 =>
          rw [hg] at h; dsimp only at h
          simp only [Option.map_some'] at h
          cases h
          refine ⟨fun j _ => rfl, ?_, fun j _ => rfl⟩
          intro j hj
          exact setRwLock_frame s id rw0.dequeue_writer.1 j
            (fun e => hj (by simp [SyncOp.rwlockIdx, e]))
  | condvarCreateOp =>
      simp only [applySyncOp, condvar_create] at h
      cases hn : CondvarId.new s.condvars.length with
      | none => rw [hn] at h; exact absurd h (by simp)
      | some id =>
          rw [hn] at h
          simp only [Option.map_some'] at h
          cases h
          refine ⟨fun j _ => rfl, fun j _ => rfl, ?_⟩
          intro j hj
          exact get?_append_singleton_ne _ _ _ (fun e => hj (by simp [SyncOp.condvarIdx, e]))
  | condvarWaitOp id t mx =>
      simp only [applySyncOp, condvar_wait] at h
      cases hg : s.getCondvar id with
      | none => rw [hg] at h; exact absurd h (by simp)
      | some cv =>
          rw [hg] at h; dsimp only at h
          cases hw : cv.wait t mx with
          | none => rw [hw] at h; exact absurd h (by simp)
          | some cv1 =>
              rw [hw] at h
              simp only [Option.map_some'] at h
              cases h
              refine ⟨fun j _ => rfl, fun j _ => rfl, ?_⟩
              intro j hj
              exact setCondvar_frame s id cv1 j (fun e => hj (by simp [SyncOp.condvarIdx, e]))
  | condvarSignalOp id =>
      simp only [applySyncOp, condvar_signal] at h
      cases hg : s.getCondvar id with
      | none => rw [hg] at h; exact absurd h (by simp)
      | some cv =>
          rw [hg] at h; dsimp only at h
          simp only [Option.map_some'] at h
          cases h
          refine ⟨fun j _ => rfl, fun j _ => rfl, ?_⟩
          intro j hj
          exact setCondvar_frame s id cv.signal.1 j
            (fun e => hj (by simp [SyncOp.condvarIdx, e]))
  | condvarRemoveWaiterOp id t =>
      simp only [applySyncOp, condvar_remove_waiter] at h
      cases hg : s.getCondvar id with
      | none => rw [hg] at h; exact absurd h (by simp)
      | some cv =>
          rw [hg] at h; dsimp only at h
          simp only [Option.some.injEq] at h
          cases h
          refine ⟨fun j _ => rfl, fun j _ => rfl, ?_⟩
          intro j hj
          exact setCondvar_frame s id (cv.remove_waiter t) j
            (fun e => hj (by simp [SyncOp.condvarIdx, e]))

/-- Witness for C10: locking mutex 1 in a two-mutex state leaves slot 1 of
the mutexes arena and the other arenas untouched. -/
theorem C10_frame_per_op_witness :
    (∀ j, some j ≠ SyncOp.mutexIdx ⟨[Mutex.default, ⟨some 1, 1, []⟩], [], []⟩
        (.mutexLockOp ⟨1, Nat.one_pos⟩ 5) →
      (⟨[⟨some 5, 1, []⟩, ⟨some 1, 1, []⟩], [], []⟩ : SynchronizationState).mutexes.get? j
        = (⟨[Mutex.default, ⟨some 1, 1, []⟩], [], []⟩ : SynchronizationState).mutexes.get? j) ∧
    (∀ j, some j ≠ SyncOp.rwlockIdx ⟨[Mutex.default, ⟨some 1, 1, []⟩], [], []⟩
        (.mutexLockOp ⟨1, Nat.one_pos⟩ 5) →
      (⟨[⟨some 5, 1, []⟩, ⟨some 1, 1, []⟩], [], []⟩ : SynchronizationState).rwlocks.get? j
        = (⟨[Mutex.default, ⟨some 1, 1, []⟩], [], []⟩ : SynchronizationState).rwlocks.get? j) ∧
    (∀ j, some j ≠ SyncOp.condvarIdx ⟨[Mutex.default, ⟨some 1, 1, []⟩], [], []⟩
        (.mutexLockOp ⟨1, Nat.one_pos⟩ 5) →
      (⟨[⟨some 5, 1, []⟩, ⟨some 1, 1, []⟩], [], []⟩ : SynchronizationState).condvars.get? j
        = (⟨[Mutex.default, ⟨some 1, 1, []⟩], [], []⟩ : SynchronizationState).condvars.get? j) :=
  C10_frame_per_op ⟨[Mutex.default, ⟨some 1, 1, []⟩], [], []⟩
    ⟨[⟨some 5, 1, []⟩, ⟨some 1, 1, []⟩], [], []⟩
    (.mutexLockOp ⟨1, Nat.one_pos⟩ 5) (by decide)

/-- Witness for C6 at `n = 3`, `k = 0`. -/
theorem C6_identifier_algebra_witness :
    (∃ id, MutexId.new 3 = some id ∧ id.val = 3 + 1 ∧ MutexId.index id = 3) ∧
    (∃ id, RwLockId.new 3 = some id ∧ id.val = 3 + 1 ∧ RwLockId.index id = 3) ∧
    (∃ id, CondvarId.new 3 = some id ∧ id.val = 3 + 1 ∧ CondvarId.index id = 3) ∧
    (∀ id : MutexId, 1 ≤ id.val) ∧
    (∀ id : RwLockId, 1 ≤ id.val) ∧
    (∀ id : CondvarId, 1 ≤ id.val) ∧
    (MutexId.from_u32 0 = none ↔ (0 : Nat) = 0) ∧
    (RwLockId.from_u32 0 = none ↔ (0 : Nat) = 0) ∧
    (CondvarId.from_u32 0 = none ↔ (0 : Nat) = 0) :=
  C6_identifier_algebra 3 0 (by decide)
